import Mathlib

/-!
Verification of the waypoint-geometry and trip-derivation engine of
`illume.py` (Porto taxi-trip explorer).  The Python source is embedded
shallowly at two levels of fidelity.  The idealised level parses
coordinates to exact rationals and computes geometry over the reals; it
backs the structural and concrete-input theorems.  The float-refined
level additionally models CPython float semantics on the failure paths:
overflow of parsed literals to `inf`, underflow to `0.0`, `nan`
propagation through the geometry, and the `ValueError` raised by
`math.cos` on an infinite argument.  Fallible Python operations (list
indexing, `max` of an empty iterable, raised exceptions) are modelled
with `Option`, and the print-as-you-go diagnostic of `parseWaypoints` is
modelled as a counter carried through the parsing fold.
-/

set_option maxRecDepth 16384

namespace TaxiPredict

open Real

/-- One GPS fix, as built by `parseWaypoints` in `illume.py`: the tuple
`(longitude, latitude, distance, heading)`. -/
structure Waypoint where
  longitude : ℚ
  latitude : ℚ
  distance : ℝ
  heading : ℝ

/-- Model of C/Python `math.atan2 y x` over the reals (signed zeros of
floating point have no counterpart here): the angle in `(-π, π]` of the
vector `(x, y)`. -/
noncomputable def atan2 (y x : ℝ) : ℝ :=
  if 0 < x then Real.arctan (y / x)
  else if x < 0 then
    (if 0 ≤ y then Real.arctan (y / x) + π else Real.arctan (y / x) - π)
  else
    (if 0 < y then π / 2 else if y < 0 then -(π / 2) else 0)

/-- `geodist` of `illume.py`: equirectangular planar approximation of the
distance in metres between two lon/lat points (degrees). -/
noncomputable def geodist (lon1 lat1 lon2 lat2 : ℝ) : ℝ :=
  let latFactor := Real.cos (((lat1 + lat2) / 2) * (π / 180))
  let radius : ℝ := 6371000
  let lonDelta := (lon1 - lon2) * latFactor
  let latDelta := lat1 - lat2
  Real.sqrt (lonDelta * lonDelta + latDelta * latDelta) * radius * (π / 180)

/-- `geodir` of `illume.py`: `atan2(latDelta, lonDelta) * 180/pi` with the
same deltas as `geodist`. -/
noncomputable def geodir (lon1 lat1 lon2 lat2 : ℝ) : ℝ :=
  let latFactor := Real.cos (((lat1 + lat2) / 2) * (π / 180))
  let lonDelta := (lon1 - lon2) * latFactor
  let latDelta := lat1 - lat2
  atan2 latDelta lonDelta * 180 / π

/-- `haverdist`'s helper `haversin` of `illume.py`. -/
noncomputable def haversin (angl : ℝ) : ℝ :=
  let sinx := Real.sin (angl / 2)
  sinx * sinx

/-- `haverdist` of `illume.py`: great-circle distance in metres. -/
noncomputable def haverdist (lon1 lat1 lon2 lat2 : ℝ) : ℝ :=
  let radius : ℝ := 6371000
  let lon1r := lon1 * π / 180
  let lat1r := lat1 * π / 180
  let lon2r := lon2 * π / 180
  let lat2r := lat2 * π / 180
  let halver := haversin (lat1r - lat2r) +
    Real.cos lat1r * Real.cos lat2r * haversin (lon1r - lon2r)
  2 * radius * Real.arcsin (Real.sqrt halver)

/-- Numeric value of a digit string (most significant first). -/
def natOfDigits (cs : List Char) : ℕ :=
  cs.foldl (fun a c => 10 * a + (c.toNat - 48)) 0

/-- Idealised model of Python's builtin `float` applied to a string,
covering only the plain decimal-literal grammar
`[sign] (digits [. digits] | . digits) [(e|E) [sign] digits]` with the
value kept as an exact rational.  On that grammar without overflow it
agrees exactly with `float`; it does not accept the surrounding
whitespace, digit underscores or `inf`/`nan` words that `float` also
accepts, and it does not overflow.  The refined model `pyFloatF?` below
covers the full behaviour; this idealised version backs the theorems
whose inputs stay on the plain grammar or that do not depend on which
fragments parse. -/
def pyFloat? (cs : List Char) : Option ℚ :=
  let (neg, cs1) : Bool × List Char :=
    match cs with
    | '+' :: t => (false, t)
    | '-' :: t => (true, t)
    | _ => (false, cs)
  let ip := cs1.takeWhile Char.isDigit
  let rest1 := cs1.dropWhile Char.isDigit
  let (fp, rest2) : List Char × List Char :=
    match rest1 with
    | '.' :: t => (t.takeWhile Char.isDigit, t.dropWhile Char.isDigit)
    | _ => ([], rest1)
  if ip = [] ∧ fp = [] then none
  else
    let num : ℤ := (natOfDigits ip * 10 ^ fp.length + natOfDigits fp : ℕ)
    let num : ℤ := if neg then -num else num
    let den : ℕ := 10 ^ fp.length
    match rest2 with
    | [] => some (mkRat num den)
    | e :: t =>
      if e = 'e' ∨ e = 'E' then
        let (eneg, t1) : Bool × List Char :=
          match t with
          | '+' :: t2 => (false, t2)
          | '-' :: t2 => (true, t2)
          | _ => (false, t)
        let ed := t1.takeWhile Char.isDigit
        let rest3 := t1.dropWhile Char.isDigit
        if ed = [] ∨ rest3 ≠ [] then none
        else if eneg then some (mkRat num (den * 10 ^ natOfDigits ed))
        else some (mkRat (num * 10 ^ natOfDigits ed) den)
      else none

/-- Model of Python `stamp.partition(',')` keeping the two used pieces:
the text before the first comma and the text after it (empty when the
stamp holds no comma). -/
def partitionComma (cs : List Char) : List Char × List Char :=
  (cs.takeWhile (fun c => c ≠ ','),
   match cs.dropWhile (fun c => c ≠ ',') with
   | _ :: t => t
   | [] => [])

/-- Auxiliary splitter: fuel-driven scan for the leftmost occurrence of
`sep`, accumulating the current piece in reverse. -/
def splitSepAux (sep : List Char) : ℕ → List Char → List Char → List (List Char)
  | 0, acc, cs => [acc.reverse ++ cs]
  | fuel + 1, acc, cs =>
    if sep.isPrefixOf cs then
      acc.reverse :: splitSepAux sep fuel [] (cs.drop sep.length)
    else
      match cs with
      | [] => [acc.reverse]
      | c :: t => splitSepAux sep fuel (c :: acc) t

/-- Model of Python `str.split(sep)` for a fixed non-empty separator:
leftmost, non-overlapping occurrences. -/
def splitOnSep (sep cs : List Char) : List (List Char) :=
  splitSepAux sep (cs.length + 1) [] cs

/-- The separator `"],["` used by `parseWaypoints`. -/
def waypointSep : List Char := [']', ',', '[']

/-- The fragment list of `parseWaypoints`:
`text.lstrip('[').rstrip(']').split('],[')`, with a single empty fragment
collapsed to the empty list. -/
def stampsOf (text : String) : List (List Char) :=
  let s1 := text.toList.dropWhile (fun c => c = '[')
  let s2 := (s1.reverse.dropWhile (fun c => c = ']')).reverse
  match splitOnSep waypointSep s2 with
  | [x] => if x = [] then [] else [x]
  | r => r

/-- Position assigned to a fragment by the loop body of `parseWaypoints`:
the two parsed floats on success, `(0, 0)` when either `float` call
raises. -/
def parsedPos (stamp : List Char) : ℚ × ℚ :=
  match pyFloat? (partitionComma stamp).1, pyFloat? (partitionComma stamp).2 with
  | some lo, some la => (lo, la)
  | _, _ => (0, 0)

/-- Does the `try` block of `parseWaypoints` raise on this fragment? -/
def stampFails (stamp : List Char) : Bool :=
  (pyFloat? (partitionComma stamp).1).isNone || (pyFloat? (partitionComma stamp).2).isNone

/-- Does this fragment satisfy the diagnostic condition of
`parseWaypoints` (`except` entered and `longi != '' or lati != ''`)? -/
def stampTrigger (stamp : List Char) : Bool :=
  stampFails stamp &&
    (!(partitionComma stamp).1.isEmpty || !(partitionComma stamp).2.isEmpty)

/-- The waypoint built for one fragment, given the last-known-position
cursor: segment distance and heading are computed from the cursor exactly
when the cursor is non-zero in both coordinates (`lastLongi != 0 and
lastLati != 0` in the source), else both are 0. -/
noncomputable def stepWaypoint (lastLongi lastLati : ℚ) (stamp : List Char) : Waypoint :=
  if lastLongi ≠ 0 ∧ lastLati ≠ 0 then
    { longitude := (parsedPos stamp).1
      latitude := (parsedPos stamp).2
      distance := geodist ((parsedPos stamp).1 : ℝ) ((parsedPos stamp).2 : ℝ)
        (lastLongi : ℝ) (lastLati : ℝ)
      heading := geodir ((parsedPos stamp).1 : ℝ) ((parsedPos stamp).2 : ℝ)
        (lastLongi : ℝ) (lastLati : ℝ) }
  else
    { longitude := (parsedPos stamp).1
      latitude := (parsedPos stamp).2
      distance := 0
      heading := 0 }

/-- The mutable state of the `for stamp in stamps` loop of
`parseWaypoints`: the last-known-position cursor, the `happy` flag, the
number of diagnostics printed so far, and the waypoints accumulated. -/
structure PState where
  lastLongi : ℚ
  lastLati : ℚ
  happy : Bool
  diags : ℕ
  waypoints : List Waypoint

/-- One iteration of the `parseWaypoints` loop: append the fragment's
waypoint, print at most one diagnostic per call (modelled by `diags`),
and move the cursor to the current parsed position — also on the very
first fragment. -/
noncomputable def parseStep (st : PState) (stamp : List Char) : PState :=
  { lastLongi := (parsedPos stamp).1
    lastLati := (parsedPos stamp).2
    happy := if stampTrigger stamp && st.happy then false else st.happy
    diags := if stampTrigger stamp && st.happy then st.diags + 1 else st.diags
    waypoints := st.waypoints ++ [stepWaypoint st.lastLongi st.lastLati stamp] }

/-- Run the whole `parseWaypoints` loop from the initial state
(`lastLongi, lastLati = 0, 0`, `happy = True`, no waypoints). -/
noncomputable def parseRun (text : String) : PState :=
  (stampsOf text).foldl parseStep ⟨0, 0, true, 0, []⟩

/-- `parseWaypoints` of `illume.py`: the waypoint list built from the
polyline text. -/
noncomputable def parseWaypoints (text : String) : List Waypoint :=
  (parseRun text).waypoints

/-- Number of diagnostic lines printed by one call of `parseWaypoints`. -/
noncomputable def parseDiags (text : String) : ℕ :=
  (parseRun text).diags

/-- The outlier buckets counted in `prepare`'s `excuses` array. -/
inductive Outlier where
  | ACCEPTED
  | TOO_SHORT_TIME
  | TOO_SHORT_DISTANCE
  | TOO_SLOW
  | TOO_FAST
deriving DecidableEq

/-- `drivedist` as computed in `illume`, `summarize` and `prepare`:
`sum(p[2] for p in waypoints)`. -/
noncomputable def driveDist (ws : List Waypoint) : ℝ :=
  (ws.map Waypoint.distance).sum

/-- `tripdist` as computed in `summarize` and `prepare`:
`0 if len(waypoints)==0 else geodist(waypoints[0][0], waypoints[0][1],
waypoints[-1][0], waypoints[-1][1])`. -/
noncomputable def tripDist (ws : List Waypoint) : ℝ :=
  match ws.head?, ws.getLast? with
  | some f, some l =>
    geodist (f.longitude : ℝ) (f.latitude : ℝ) (l.longitude : ℝ) (l.latitude : ℝ)
  | _, _ => 0

/-- `tripdist` as computed in `illume`'s display path: the same `geodist`
call on `waypoints[0]` and `waypoints[-1]`, but without the emptiness
guard — `none` models the `IndexError` Python raises on an empty list. -/
noncomputable def illumeTripdist? (ws : List Waypoint) : Option ℝ :=
  match ws.head?, ws.getLast? with
  | some f, some l =>
    some (geodist (f.longitude : ℝ) (f.latitude : ℝ) (l.longitude : ℝ) (l.latitude : ℝ))
  | _, _ => none

/-- `triptime` as computed in `illume`, `summarize` and `prepare`:
`0.25 * max(0, len(waypoints) - 1)` minutes. -/
noncomputable def tripTime (ws : List Waypoint) : ℝ :=
  0.25 * ((max 0 ((ws.length : ℤ) - 1) : ℤ) : ℝ)

/-- The two speed expressions of `illume`'s display path:
`dist/triptime*(60/1000) if triptime!=0 else 0`. -/
noncomputable def avgSpeed (dist triptime : ℝ) : ℝ :=
  if triptime ≠ 0 then dist / triptime * (60 / 1000) else 0

/-- Model of Python `max` over a list of numbers: `none` models the
`ValueError` raised on an empty iterable. -/
noncomputable def pyMax? : List ℝ → Option ℝ
  | [] => none
  | x :: xs => some (xs.foldl max x)

/-- The outlier chain of `prepare` (the `if/elif` ladder filling
`excuses`), with the `max` over segment distances kept fallible: a `none`
result would be Python raising `ValueError` on an empty sequence when the
fourth rule is reached. -/
noncomputable def outlierOf? (ws : List Waypoint) : Option Outlier :=
  if tripTime ws < 0.5 then some Outlier.TOO_SHORT_TIME
  else if tripDist ws < 30 then some Outlier.TOO_SHORT_DISTANCE
  else if driveDist ws / tripTime ws < 5 then some Outlier.TOO_SLOW
  else
    match pyMax? (ws.map Waypoint.distance) with
    | none => none
    | some m => if m > 625 then some Outlier.TOO_FAST else some Outlier.ACCEPTED

/-- The outlier classification as the specification words it: a total,
first-match-wins priority chain in which rule 1 is checked before any
`max` over waypoints is attempted.  Stated from the spec's words for
comparison with `outlierOf?`, which is translated from the source. -/
noncomputable def outlierOfSpec (ws : List Waypoint) : Outlier :=
  if tripTime ws < 0.5 then Outlier.TOO_SHORT_TIME
  else if tripDist ws < 30 then Outlier.TOO_SHORT_DISTANCE
  else if driveDist ws / tripTime ws < 5 then Outlier.TOO_SLOW
  else if (pyMax? (ws.map Waypoint.distance)).getD 0 > 625 then Outlier.TOO_FAST
  else Outlier.ACCEPTED

/-- Model of Python list indexing `l[ix]` with one round of negative
wrap-around; `none` models `IndexError`. -/
def pyIndex? {α : Type} (l : List α) (ix : ℤ) : Option α :=
  if 0 ≤ ix then l.get? ix.toNat
  else if 0 ≤ (l.length : ℤ) + ix then l.get? ((l.length : ℤ) + ix).toNat
  else none

/-- The fixed sampling indices of `prepare`: `[0, 2*4, 5*4, 10*4, -1]`. -/
def prepareOffsets : List ℤ := [0, 2 * 4, 5 * 4, 10 * 4, -1]

/-- One fixed-offset sample of `prepare`: the waypoint's
`(longitude, latitude)` when `-len(waypoints) <= ix < len(waypoints)`,
else the blank pair (modelled as `none`). -/
def prepareSample (ws : List Waypoint) (ix : ℤ) : Option (ℚ × ℚ) :=
  if -(ws.length : ℤ) ≤ ix ∧ ix < (ws.length : ℤ) then
    (pyIndex? ws ix).map (fun w => (w.longitude, w.latitude))
  else none

/-- The `MISSING_DATA` expression shared by `summarize` and `prepare`:
`"True" if len(waypoints)==0 else "True" if len(line)<7 or
line[7][0:1]=='T' else "False"`; `none` models the `IndexError` raised by
`line[7]` when the row is too short. -/
def missingData? (line : List String) (ws : List Waypoint) : Option Bool :=
  if ws.length = 0 then some true
  else if line.length < 7 then some true
  else
    match line.get? 7 with
    | some s => some (s.take 1 == "T")
    | none => none

/-- The header of the Porto taxi-trip CSV file: `POLYLINE` is the ninth
column (index 8) and the completeness flag `MISSING_DATA` the eighth
(index 7). -/
def portoLabels : List String :=
  ["TRIP_ID", "CALL_TYPE", "ORIGIN_CALL", "ORIGIN_STAND", "TAXI_ID",
   "TIMESTAMP", "DAY_TYPE", "MISSING_DATA", "POLYLINE"]

/-- The `for (label, atom) in zip(labels, line)` scan that (re)assigns
`waypoints` from the `POLYLINE` column, starting from the value the
variable already holds (`init`).  `prepare` initialises `waypoints = []`
per row; `summarize` does not, so there `init` is whatever the previous
row left behind. -/
noncomputable def rowWaypointsFrom (init : List Waypoint) (labels line : List String) :
    List Waypoint :=
  (labels.zip line).foldl
    (fun acc p => if p.1 = "POLYLINE" then parseWaypoints p.2 else acc) init

/-- The waypoint sequence `prepare` derives for one row under the Porto
header: `waypoints` is initialised to `[]` before the scan. -/
noncomputable def rowWaypoints (line : List String) : List Waypoint :=
  rowWaypointsFrom [] portoLabels line

/-- `prepare`'s `MISSING_DATA` output for one row under the Porto header. -/
noncomputable def prepareMissing? (line : List String) : Option Bool :=
  missingData? line (rowWaypoints line)

/-- `summarize`'s `MISSING_DATA` output for one row under the Porto
header, given the `waypoints` value left over from earlier rows. -/
noncomputable def summarizeMissing? (prev : List Waypoint) (line : List String) :
    Option Bool :=
  missingData? line (rowWaypointsFrom prev portoLabels line)

/-! ### Float-refined parse model

The definitions above idealise every successfully parsed coordinate as
an exact rational, which is sound for the concrete well-formed inputs
and structural properties proved below but does not reach the
floating-point failure paths of the program: CPython `float` accepts
surrounding whitespace, underscores between digits and the
`inf`/`infinity`/`nan` words, overflows large literals such as `1e999`
to `inf` and underflows tiny ones to `0.0`; an infinite coordinate then
flows into `geodist`, where `math.cos` raises `ValueError` on an
infinite argument and `inf - inf` produces `nan`.  The refined model
below tracks exactly these paths: a parsed value is a `PyVal` (finite
exact rational, `inf`, `-inf` or `nan`), geometric values are `FVal`s,
and a raised exception is `none`.  Finite values are kept exact (53-bit
rounding is not modelled, and overflow/underflow thresholds are applied
to the exact values), signed zeros are collapsed to `0`, and CPython's
transliteration of non-ASCII digit and space characters is not
modelled. -/

/-- A Python float value as produced by `float(...)`: a finite value
(kept as its exact rational), a signed infinity, or `nan`. -/
inductive PyVal where
  | fin : ℚ → PyVal
  | inf : PyVal
  | ninf : PyVal
  | nan : PyVal
deriving DecidableEq

/-- A double value in the geometry computations: a finite value (kept as
an exact real), a signed infinity, or `nan`. -/
inductive FVal where
  | fin : ℝ → FVal
  | inf : FVal
  | ninf : FVal
  | nan : FVal

/-- Smallest magnitude that rounds to infinity when a decimal literal is
converted to a double: the midpoint `2^1024 - 2^970` between the largest
finite double and `2^1024` (ties round to even, i.e. away from the
largest finite double).  Written with nested small exponents —
`(2^256)^4 = 2^1024` and `(2^256)^3 * 2^202 = 2^970` — so that the
elaborator constant-folds the value. -/
def OVRN : ℕ := (2 ^ 256) ^ 4 - (2 ^ 256) ^ 3 * 2 ^ 202

/-- Reciprocal of the largest magnitude that rounds to `0.0`: magnitudes
at most `2^-1075` (the midpoint below the smallest subnormal) convert to
zero; `(2^256)^4 * 2^51 = 2^1075`. -/
def UNDD : ℕ := (2 ^ 256) ^ 4 * 2 ^ 51

/-- Classify the exact decimal value `(-1)^neg * numN / denN` as a
Python float: overflow to a signed infinity at `OVRN`, underflow to
`0.0` at `2^-1075`, every other value kept exact. -/
def mkPyFin (neg : Bool) (numN denN : ℕ) : PyVal :=
  if OVRN * denN ≤ numN then (if neg then PyVal.ninf else PyVal.inf)
  else if numN * UNDD ≤ denN then PyVal.fin 0
  else PyVal.fin (if neg then -(mkRat (numN : ℤ) denN) else mkRat (numN : ℤ) denN)

/-- ASCII whitespace stripped by Python's `float`. -/
def isPySpace (c : Char) : Bool :=
  c == ' ' || c == '\t' || c == '\n' || c == '\r' || c == '\x0B' || c == '\x0C'

/-- Continue a digit run in which a single underscore may stand between
two digits (Python numeric-literal underscores): returns the digits read
and the unconsumed remainder. -/
def digitsURest : List Char → List Char × List Char
  | '_' :: c :: t =>
    if c.isDigit then
      let (ds, rest) := digitsURest t
      (c :: ds, rest)
    else ([], '_' :: c :: t)
  | c :: t =>
    if c.isDigit then
      let (ds, rest) := digitsURest t
      (c :: ds, rest)
    else ([], c :: t)
  | [] => ([], [])

/-- A digit run with optional inner underscores; must begin with a
digit. -/
def digitsU (cs : List Char) : List Char × List Char :=
  match cs with
  | c :: t =>
    if c.isDigit then
      let (ds, rest) := digitsURest t
      (c :: ds, rest)
    else ([], cs)
  | [] => ([], [])

/-- Refined model of CPython `float` on a string: strips ASCII
whitespace, accepts a sign, the words `inf`/`infinity`/`nan`
case-insensitively, digit runs with underscores between digits, and an
optional exponent, then classifies the exact decimal value by the
`strtod` rounding thresholds (overflow to `inf`, underflow to `0.0`).
Returns `none` exactly when `float` raises `ValueError` (up to the
idealisations listed in the section comment). -/
def pyFloatF? (cs : List Char) : Option PyVal :=
  let cs0 := ((cs.dropWhile isPySpace).reverse.dropWhile isPySpace).reverse
  let (neg, cs1) : Bool × List Char :=
    match cs0 with
    | '+' :: t => (false, t)
    | '-' :: t => (true, t)
    | _ => (false, cs0)
  let low := cs1.map Char.toLower
  if low = ['i', 'n', 'f'] ∨ low = ['i', 'n', 'f', 'i', 'n', 'i', 't', 'y'] then
    some (if neg then PyVal.ninf else PyVal.inf)
  else if low = ['n', 'a', 'n'] then some PyVal.nan
  else
    let (ip, rest1) := digitsU cs1
    let (fp, rest2) : List Char × List Char :=
      match rest1 with
      | '.' :: t => digitsU t
      | _ => ([], rest1)
    if ip = [] ∧ fp = [] then none
    else
      let vnum : ℕ := natOfDigits ip * 10 ^ fp.length + natOfDigits fp
      let den : ℕ := 10 ^ fp.length
      match rest2 with
      | [] => some (mkPyFin neg vnum den)
      | e :: t =>
        if e = 'e' ∨ e = 'E' then
          let (eneg, t1) : Bool × List Char :=
            match t with
            | '+' :: t2 => (false, t2)
            | '-' :: t2 => (true, t2)
            | _ => (false, t)
          let (ed, rest3) := digitsU t1
          if ed = [] ∨ rest3 ≠ [] then none
          else if eneg then some (mkPyFin neg vnum (den * 10 ^ natOfDigits ed))
          else some (mkPyFin neg (vnum * 10 ^ natOfDigits ed) den)
        else none

/-- The double-precision overflow threshold as a real number: finite
double arithmetic whose exact result reaches this magnitude overflows to
a signed infinity. -/
noncomputable def OVRR : ℝ := (OVRN : ℝ)

/-- Negation of a double value. -/
def fNeg : FVal → FVal
  | .fin a => .fin (-a)
  | .inf => .ninf
  | .ninf => .inf
  | .nan => .nan

/-- Addition of double values: `nan` propagates, `inf + -inf = nan`,
finite sums overflow to a signed infinity at the threshold. -/
noncomputable def fAdd : FVal → FVal → FVal
  | .nan, _ => .nan
  | _, .nan => .nan
  | .inf, .ninf => .nan
  | .inf, _ => .inf
  | .ninf, .inf => .nan
  | .ninf, _ => .ninf
  | .fin _, .inf => .inf
  | .fin _, .ninf => .ninf
  | .fin a, .fin b =>
    if OVRR ≤ a + b then .inf
    else if a + b ≤ -OVRR then .ninf
    else .fin (a + b)

/-- Subtraction of double values. -/
noncomputable def fSub (a b : FVal) : FVal := fAdd a (fNeg b)

/-- Multiplication of double values: `nan` propagates,
`inf * 0 = nan`, finite products overflow at the threshold. -/
noncomputable def fMul : FVal → FVal → FVal
  | .nan, _ => .nan
  | _, .nan => .nan
  | .inf, .inf => .inf
  | .inf, .ninf => .ninf
  | .ninf, .inf => .ninf
  | .ninf, .ninf => .inf
  | .inf, .fin b => if 0 < b then .inf else if b < 0 then .ninf else .nan
  | .ninf, .fin b => if 0 < b then .ninf else if b < 0 then .inf else .nan
  | .fin a, .inf => if 0 < a then .inf else if a < 0 then .ninf else .nan
  | .fin a, .ninf => if 0 < a then .ninf else if a < 0 then .inf else .nan
  | .fin a, .fin b =>
    if OVRR ≤ a * b then .inf
    else if a * b ≤ -OVRR then .ninf
    else .fin (a * b)

/-- Halving a double value (exact on doubles). -/
noncomputable def fHalf : FVal → FVal
  | .fin a => .fin (a / 2)
  | .inf => .inf
  | .ninf => .ninf
  | .nan => .nan

/-- Division of a double value by a positive finite constant (used for
the final `/ pi`). -/
noncomputable def fDivPC : FVal → ℝ → FVal
  | .fin a, c => .fin (a / c)
  | .inf, _ => .inf
  | .ninf, _ => .ninf
  | .nan, _ => .nan

/-- `math.cos` on a double value: raises `ValueError` (`none`) on an
infinite argument, propagates `nan`. -/
noncomputable def fCos : FVal → Option FVal
  | .fin a => some (.fin (Real.cos a))
  | .nan => some .nan
  | _ => none

/-- `math.sqrt` on a double value: raises on negative arguments
(including `-inf`), propagates `nan`, and `sqrt(inf) = inf`. -/
noncomputable def fSqrt : FVal → Option FVal
  | .fin a => if a < 0 then none else some (.fin (Real.sqrt a))
  | .inf => some .inf
  | .ninf => none
  | .nan => some .nan

/-- `math.atan2` on double values: never raises; `nan` propagates, and
infinite arguments give the usual quadrant multiples of `π/4` (signed
zeros collapsed to `0`). -/
noncomputable def atan2F : FVal → FVal → FVal
  | .nan, _ => .nan
  | _, .nan => .nan
  | .inf, .inf => .fin (π / 4)
  | .inf, .ninf => .fin (3 * π / 4)
  | .inf, .fin _ => .fin (π / 2)
  | .ninf, .inf => .fin (-(π / 4))
  | .ninf, .ninf => .fin (-(3 * π / 4))
  | .ninf, .fin _ => .fin (-(π / 2))
  | .fin _, .inf => .fin 0
  | .fin a, .ninf => .fin (if 0 ≤ a then π else -π)
  | .fin a, .fin b => .fin (atan2 a b)

/-- Inject a parsed value into the geometry value domain. -/
def toF : PyVal → FVal
  | .fin q => .fin (q : ℝ)
  | .inf => .inf
  | .ninf => .ninf
  | .nan => .nan

/-- `geodist` on Python float values, following the source expression
step by step; `none` is a raised `ValueError` (from `cos` of an infinite
latitude sum). -/
noncomputable def geodistF (lon1 lat1 lon2 lat2 : PyVal) : Option FVal :=
  match fCos (fMul (fHalf (fAdd (toF lat1) (toF lat2))) (.fin (π / 180))) with
  | none => none
  | some latFactor =>
    let lonDelta := fMul (fSub (toF lon1) (toF lon2)) latFactor
    let latDelta := fSub (toF lat1) (toF lat2)
    match fSqrt (fAdd (fMul lonDelta lonDelta) (fMul latDelta latDelta)) with
    | none => none
    | some root => some (fMul (fMul root (.fin 6371000)) (.fin (π / 180)))

/-- `geodir` on Python float values; its `cos` call raises in exactly
the same cases as `geodist`'s. -/
noncomputable def geodirF (lon1 lat1 lon2 lat2 : PyVal) : Option FVal :=
  match fCos (fMul (fHalf (fAdd (toF lat1) (toF lat2))) (.fin (π / 180))) with
  | none => none
  | some latFactor =>
    let lonDelta := fMul (fSub (toF lon1) (toF lon2)) latFactor
    let latDelta := fSub (toF lat1) (toF lat2)
    some (fDivPC (fMul (atan2F latDelta lonDelta) (.fin 180)) π)

/-- Position assigned to a fragment under the refined float model. -/
def parsedPosF (stamp : List Char) : PyVal × PyVal :=
  match pyFloatF? (partitionComma stamp).1, pyFloatF? (partitionComma stamp).2 with
  | some lo, some la => (lo, la)
  | _, _ => (PyVal.fin 0, PyVal.fin 0)

/-- Does the `try` block raise on this fragment, under the refined float
model? -/
def stampFailsF (stamp : List Char) : Bool :=
  (pyFloatF? (partitionComma stamp).1).isNone || (pyFloatF? (partitionComma stamp).2).isNone

/-- The diagnostic condition of `parseWaypoints` under the refined float
model. -/
def stampTriggerF (stamp : List Char) : Bool :=
  stampFailsF stamp &&
    (!(partitionComma stamp).1.isEmpty || !(partitionComma stamp).2.isEmpty)

/-- Python `v != 0` on a float value: `inf`, `-inf` and `nan` all
compare unequal to zero. -/
def pyNonzero : PyVal → Bool
  | .fin q => decide (q ≠ 0)
  | _ => true

/-- A waypoint whose fields are Python float values. -/
structure WaypointF where
  longitude : PyVal
  latitude : PyVal
  distance : FVal
  heading : FVal

/-- One fragment's waypoint under the refined model; `none` is a raised
exception escaping `parseWaypoints` (the geometry calls sit outside the
`try`). -/
noncomputable def stepWaypointF (lastLongi lastLati : PyVal) (stamp : List Char) :
    Option WaypointF :=
  if pyNonzero lastLongi && pyNonzero lastLati then
    match geodistF (parsedPosF stamp).1 (parsedPosF stamp).2 lastLongi lastLati,
        geodirF (parsedPosF stamp).1 (parsedPosF stamp).2 lastLongi lastLati with
    | some d, some h => some ⟨(parsedPosF stamp).1, (parsedPosF stamp).2, d, h⟩
    | _, _ => none
  else some ⟨(parsedPosF stamp).1, (parsedPosF stamp).2, FVal.fin 0, FVal.fin 0⟩

/-- The loop state of `parseWaypoints` under the refined model. -/
structure PStateF where
  lastLongi : PyVal
  lastLati : PyVal
  happy : Bool
  diags : ℕ
  waypoints : List WaypointF

/-- One loop iteration under the refined model; `none` aborts the whole
call with the raised exception. -/
noncomputable def parseStepF (st : PStateF) (stamp : List Char) : Option PStateF :=
  match stepWaypointF st.lastLongi st.lastLati stamp with
  | none => none
  | some w =>
    some
      { lastLongi := (parsedPosF stamp).1
        lastLati := (parsedPosF stamp).2
        happy := if stampTriggerF stamp && st.happy then false else st.happy
        diags := if stampTriggerF stamp && st.happy then st.diags + 1 else st.diags
        waypoints := st.waypoints ++ [w] }

/-- Run `parseWaypoints` under the refined model: `none` means the call
raised instead of returning. -/
noncomputable def parseRunF (text : String) : Option PStateF :=
  (stampsOf text).foldl (fun acc s => acc.bind fun st => parseStepF st s)
    (some ⟨PyVal.fin 0, PyVal.fin 0, true, 0, []⟩)

/-- The waypoint list under the refined model (`none` = raised). -/
noncomputable def parseWaypointsF (text : String) : Option (List WaypointF) :=
  (parseRunF text).map PStateF.waypoints

/-- Python `v >= 0` on a float value: false for `nan` (every comparison
with `nan` is false) and for `-inf`. -/
def fGe0 : FVal → Prop
  | .fin r => 0 ≤ r
  | .inf => True
  | _ => False

/-- Python `sum` over float values (starting from `0`). -/
noncomputable def fSum (l : List FVal) : FVal := l.foldl fAdd (.fin 0)

/-- Is this parsed value a finite coordinate inside the documented
`[-180, 180]` degree range? -/
def inRangeB : PyVal → Bool
  | .fin q => decide (-180 ≤ q ∧ q ≤ 180)
  | _ => false

/-- Both components of a parsed position are finite in-range
coordinates. -/
def posInRangeB (p : PyVal × PyVal) : Bool := inRangeB p.1 && inRangeB p.2

/-- The per-waypoint range invariant under the refined model: the
segment distance is a finite nonnegative value and the heading a finite
value in `[-180, 180]`. -/
def goodWF (w : WaypointF) : Prop :=
  (∃ r, w.distance = FVal.fin r ∧ 0 ≤ r) ∧
  (∃ h, w.heading = FVal.fin h ∧ -180 ≤ h ∧ h ≤ 180)

/-- The segment rule of `parseWaypoints` between two consecutive
waypoints: the successor's segment is computed by `geodist`/`geodir` from
the predecessor's position exactly when that position is non-zero in both
coordinates, and is `(0, 0)` otherwise. -/
def segRel (w w' : Waypoint) : Prop :=
  (w.longitude ≠ 0 ∧ w.latitude ≠ 0 →
    w'.distance = geodist (w'.longitude : ℝ) (w'.latitude : ℝ)
        (w.longitude : ℝ) (w.latitude : ℝ) ∧
    w'.heading = geodir (w'.longitude : ℝ) (w'.latitude : ℝ)
        (w.longitude : ℝ) (w.latitude : ℝ)) ∧
  ((w.longitude = 0 ∨ w.latitude = 0) → w'.distance = 0 ∧ w'.heading = 0)

/-- Invariant of the `parseWaypoints` loop: the last-known-position
cursor coincides with the position of the last waypoint built so far. -/
def cursorOk (st : PState) : Prop :=
  ∀ w, st.waypoints.getLast? = some w →
    st.lastLongi = w.longitude ∧ st.lastLati = w.latitude

/-- All consecutive pairs of a waypoint list satisfy the segment rule. -/
def adjOk (l : List Waypoint) : Prop :=
  ∀ i w w', l.get? i = some w → l.get? (i + 1) = some w' → segRel w w'

/-! Helper lemmas -/

theorem atan2_mem_Icc (y x : ℝ) : -π ≤ atan2 y x ∧ atan2 y x ≤ π := by
  have ha1 := Real.arctan_lt_pi_div_two (y / x)
  have ha2 := Real.neg_pi_div_two_lt_arctan (y / x)
  have hπ := Real.pi_pos
  have hmono := Real.arctan_strictMono.monotone
  unfold atan2
  split_ifs with hx hx' hy hy' hy''
  · constructor <;> linarith
  · have hd : y / x ≤ 0 := div_nonpos_iff.mpr (Or.inl ⟨hy, hx'.le⟩)
    have h0 : Real.arctan (y / x) ≤ 0 := by
      simpa [Real.arctan_zero] using hmono hd
    constructor <;> linarith
  · have hd : 0 ≤ y / x := by
      apply div_nonneg_iff.mpr
      right
      constructor <;> [linarith; linarith]
    have h0 : 0 ≤ Real.arctan (y / x) := by
      simpa [Real.arctan_zero] using hmono hd
    constructor <;> linarith
  · constructor <;> linarith
  · constructor <;> linarith
  · constructor <;> linarith

theorem atan2_zero_of_pos (x : ℝ) (hx : 0 < x) : atan2 0 x = 0 := by
  unfold atan2
  rw [if_pos hx, zero_div, Real.arctan_zero]

theorem geodir_mem_Icc (lon1 lat1 lon2 lat2 : ℝ) :
    -180 ≤ geodir lon1 lat1 lon2 lat2 ∧ geodir lon1 lat1 lon2 lat2 ≤ 180 := by
  have hπ := Real.pi_pos
  obtain ⟨h1, h2⟩ := atan2_mem_Icc (lat1 - lat2)
    ((lon1 - lon2) * Real.cos (((lat1 + lat2) / 2) * (π / 180)))
  unfold geodir
  constructor
  · rw [le_div_iff₀ hπ]
    nlinarith
  · rw [div_le_iff₀ hπ]
    nlinarith

theorem geodist_nonneg (lon1 lat1 lon2 lat2 : ℝ) : 0 ≤ geodist lon1 lat1 lon2 lat2 := by
  have hπ := Real.pi_pos
  unfold geodist
  positivity

theorem tripTime_nil : tripTime [] = 0 := by
  norm_num [tripTime]

theorem outlierOf_nil : outlierOf? [] = some Outlier.TOO_SHORT_TIME := by
  rw [outlierOf?, if_pos]
  rw [tripTime_nil]
  norm_num

/-- C2: the claim says `planar_heading(p1, p2)` returns `180` or `-180`
when `p1` is due east of `p2`; the code returns `0` there.  Witnessed at
`p1 = (1, 41)`, `p2 = (0, 41)` (same latitude `41°`, `lon1 > lon2`):
`geodir` computes `atan2(0, positive)`, which is `0`. -/
theorem geodir_due_east_value : geodir 1 41 0 41 = 0 := by
  have hπ := Real.pi_pos
  have hcos : 0 < Real.cos ((((41 : ℝ) + 41) / 2) * (π / 180)) := by
    apply Real.cos_pos_of_mem_Ioo
    constructor
    · nlinarith
    · nlinarith
  have h : geodir 1 41 0 41 =
      atan2 ((41 : ℝ) - 41)
        (((1 : ℝ) - 0) * Real.cos ((((41 : ℝ) + 41) / 2) * (π / 180))) * 180 / π := rfl
  rw [h, show ((41 : ℝ) - 41) = 0 by norm_num,
    show ((1 : ℝ) - 0) * Real.cos ((((41 : ℝ) + 41) / 2) * (π / 180)) =
      Real.cos ((((41 : ℝ) + 41) / 2) * (π / 180)) by ring,
    atan2_zero_of_pos _ hcos]
  simp

/-- C9: `parse("[]")` and `parse("")` are the empty sequence, and
`parse("[[1.0,2.0]]")` is one waypoint at `(1, 2)` with segment distance
0 and segment heading 0. -/
theorem parse_concrete_cases :
    parseWaypoints "[]" = [] ∧ parseWaypoints "" = [] ∧
    parseWaypoints "[[1.0,2.0]]" = [⟨1, 2, 0, 0⟩] :=
  ⟨rfl, rfl, rfl⟩

/-- C4 counterexample: in `illume`'s display pipeline the trip distance
is computed from `waypoints[0]` and `waypoints[-1]` without an emptiness
guard, so on an empty sequence the value is undefined (Python raises
`IndexError`), refuting the claim for the display pipeline. -/
theorem illume_empty_tripdist_undefined : illumeTripdist? [] = none := rfl

/-- C4 (amended): in the summary and prepare pipelines, aggregating an
empty waypoint sequence yields the finite defaults
`drive_distance_m = 0`, `trip_distance_m = 0`, `trip_time_min = 0`,
`outlier_class = TOO_SHORT_TIME`, and the guarded speed formulas yield
`average_speed_kmh = trip_speed_kmh = 0`. -/
theorem aggregate_empty_defaults :
    driveDist [] = 0 ∧ tripDist [] = 0 ∧ tripTime [] = 0 ∧
    outlierOf? [] = some Outlier.TOO_SHORT_TIME ∧
    avgSpeed (driveDist []) (tripTime []) = 0 ∧
    avgSpeed (tripDist []) (tripTime []) = 0 := by
  have hd : driveDist [] = 0 := by simp [driveDist]
  have ht : tripDist [] = 0 := rfl
  refine ⟨hd, ht, tripTime_nil, outlierOf_nil, ?_, ?_⟩
  · rw [hd, tripTime_nil]
    simp [avgSpeed]
  · rw [ht, tripTime_nil]
    simp [avgSpeed]

/-- C7: `trip_time_min` is exactly `0.25 * (N - 1)` for a sequence of
length `N ≥ 1` and `0` for the empty sequence. -/
theorem trip_time_formula (ws : List Waypoint) :
    tripTime ws = if ws.length = 0 then 0 else 0.25 * ((ws.length : ℝ) - 1) := by
  cases ws with
  | nil => simpa using tripTime_nil
  | cons w t =>
    rw [if_neg (by simp)]
    unfold tripTime
    have h0 : ((w :: t).length : ℤ) - 1 = (t.length : ℤ) := by
      simp
    rw [h0, max_eq_right (by positivity)]
    simp only [List.length_cons]
    push_cast
    ring

/-- C1: the outlier classification of `prepare` agrees everywhere with
the specification's total first-match priority chain (in particular the
`max` over waypoints never faces an empty sequence), the empty sequence
is classified `TOO_SHORT_TIME` by rule 1, and a sequence meeting both the
`TOO_SHORT_TIME` and `TOO_FAST` conditions is classified
`TOO_SHORT_TIME`. -/
theorem prepare_outlier_priority :
    (∀ ws : List Waypoint, outlierOf? ws = some (outlierOfSpec ws)) ∧
    outlierOf? [] = some Outlier.TOO_SHORT_TIME ∧
    (tripTime [Waypoint.mk 0 0 0 0, Waypoint.mk 0 0 700 0] < 0.5 ∧
      pyMax? ([Waypoint.mk 0 0 0 0, Waypoint.mk 0 0 700 0].map Waypoint.distance) =
        some 700 ∧ (700 : ℝ) > 625 ∧
      outlierOf? [Waypoint.mk 0 0 0 0, Waypoint.mk 0 0 700 0] =
        some Outlier.TOO_SHORT_TIME) := by
  have htt : tripTime [Waypoint.mk 0 0 0 0, Waypoint.mk 0 0 700 0] < 0.5 := by
    norm_num [tripTime]
  refine ⟨?_, outlierOf_nil, htt, ?_, by norm_num, ?_⟩
  · intro ws
    by_cases h1 : tripTime ws < 0.5
    · simp [outlierOf?, outlierOfSpec, h1]
    by_cases h2 : tripDist ws < 30
    · simp [outlierOf?, outlierOfSpec, h1, h2]
    by_cases h3 : driveDist ws / tripTime ws < 5
    · simp [outlierOf?, outlierOfSpec, h1, h2, h3]
    cases ws with
    | nil =>
      exfalso
      apply h1
      rw [tripTime_nil]
      norm_num
    | cons w t =>
      simp only [outlierOf?, outlierOfSpec, if_neg h1, if_neg h2, if_neg h3,
        List.map_cons, pyMax?, Option.getD_some]
      by_cases h4 : (t.map Waypoint.distance).foldl max w.distance > 625 <;> simp [h4]
  · simp [pyMax?]
  · rw [outlierOf?, if_pos htt]

/-- C6: the sampling indices of `prepare` are `0, 8, 20, 40, -1`; a
sample is emitted (as the indexed waypoint's longitude/latitude pair)
exactly when the index is within bounds under Python's negative
indexing, and a 41-waypoint sequence gives identical samples at index 40
(offset 10 minutes) and index -1 (finish). -/
theorem prepare_fixed_offset_sampling :
    prepareOffsets = [0, 8, 20, 40, -1] ∧
    (∀ (ws : List Waypoint) (ix : ℤ), -(ws.length : ℤ) ≤ ix → ix < (ws.length : ℤ) →
      ∃ w, pyIndex? ws ix = some w ∧
        prepareSample ws ix = some (w.longitude, w.latitude)) ∧
    (∀ (ws : List Waypoint) (ix : ℤ),
      ¬(-(ws.length : ℤ) ≤ ix ∧ ix < (ws.length : ℤ)) → prepareSample ws ix = none) ∧
    (∀ ws : List Waypoint, ws.length = 41 → prepareSample ws 40 = prepareSample ws (-1)) := by
  refine ⟨by decide, ?_, ?_, ?_⟩
  · intro ws ix h1 h2
    have hguard : -(ws.length : ℤ) ≤ ix ∧ ix < (ws.length : ℤ) := ⟨h1, h2⟩
    obtain ⟨w, hw⟩ : ∃ w, pyIndex? ws ix = some w := by
      unfold pyIndex?
      by_cases h0 : 0 ≤ ix
      · rw [if_pos h0]
        have hlt : ix.toNat < ws.length := by omega
        rw [List.get?_eq_get hlt]
        exact ⟨_, rfl⟩
      · rw [if_neg h0, if_pos (by omega : 0 ≤ (ws.length : ℤ) + ix)]
        have hlt : ((ws.length : ℤ) + ix).toNat < ws.length := by omega
        rw [List.get?_eq_get hlt]
        exact ⟨_, rfl⟩
    refine ⟨w, hw, ?_⟩
    unfold prepareSample
    rw [if_pos hguard, hw]
    rfl
  · intro ws ix hn
    unfold prepareSample
    rw [if_neg hn]
  · intro ws h
    unfold prepareSample pyIndex?
    rw [h]
    norm_num

theorem prepare_fixed_offset_sampling_witness :
    prepareSample (List.replicate 40 (Waypoint.mk 0 0 0 0) ++ [Waypoint.mk 1 1 0 0]) 40 =
      prepareSample (List.replicate 40 (Waypoint.mk 0 0 0 0) ++ [Waypoint.mk 1 1 0 0]) (-1) ∧
    ∃ w, pyIndex? [Waypoint.mk 5 6 0 0] 0 = some w ∧
      prepareSample [Waypoint.mk 5 6 0 0] 0 = some (w.longitude, w.latitude) :=
  ⟨prepare_fixed_offset_sampling.2.2.2 _ (by simp),
   prepare_fixed_offset_sampling.2.1 [Waypoint.mk 5 6 0 0] 0 (by simp) (by simp)⟩

theorem rowWaypointsFrom_short (init : List Waypoint) (line : List String)
    (h : line.length < 9) : rowWaypointsFrom init portoLabels line = init := by
  match line, h with
  | [], _ => rfl
  | [a], _ => rfl
  | [a, b], _ => rfl
  | [a, b, c], _ => rfl
  | [a, b, c, d], _ => rfl
  | [a, b, c, d, e], _ => rfl
  | [a, b, c, d, e, f], _ => rfl
  | [a, b, c, d, e, f, g], _ => rfl
  | [a, b, c, d, e, f, g, h8], _ => rfl

/-- C8 counterexample: in `summarize`, the `waypoints` variable is never
re-initialised, so with a non-empty value left over from an earlier row,
a row of exactly 7 fields makes the `MISSING_DATA` expression evaluate
`line[7]` out of bounds — refuting the claim for the summarize
pipeline. -/
theorem summarize_missing_data_oob :
    summarizeMissing? [Waypoint.mk 0 0 0 0] ["a", "b", "c", "d", "e", "f", "g"] = none :=
  rfl

/-- C8 (amended): in `prepare`, where `waypoints` is re-initialised to
`[]` for each row, the `MISSING_DATA` output is defined for every row
regardless of its field count, and is true exactly when the parsed
waypoint sequence is empty or the row's eighth field begins with `T`. -/
theorem prepare_missing_data (line : List String) :
    ∃ b, prepareMissing? line = some b ∧
      (b = true ↔ (rowWaypoints line = [] ∨
        ∃ s, line.get? 7 = some s ∧ s.take 1 = "T")) := by
  by_cases hw : rowWaypoints line = []
  · refine ⟨true, ?_, by simp [hw]⟩
    simp [prepareMissing?, missingData?, hw]
  · have hlen : 9 ≤ line.length := by
      by_contra hlt
      push_neg at hlt
      exact hw (rowWaypointsFrom_short [] line hlt)
    obtain ⟨s, hs⟩ : ∃ s, line.get? 7 = some s := by
      rw [List.get?_eq_get (by omega : 7 < line.length)]
      exact ⟨_, rfl⟩
    have hne : ¬(rowWaypoints line).length = 0 := by
      simpa [List.length_eq_zero] using hw
    refine ⟨s.take 1 == "T", ?_, ?_⟩
    · rw [prepareMissing?, missingData?, if_neg hne,
        if_neg (by omega : ¬line.length < 7), hs]
    · rw [beq_iff_eq]
      constructor
      · intro h
        exact Or.inr ⟨s, hs, h⟩
      · rintro (h | ⟨s', hs', h⟩)
        · exact absurd h hw
        · rw [hs] at hs'
          cases hs'
          exact h

theorem stepWaypoint_pos (a b : ℚ) (s : List Char) :
    (stepWaypoint a b s).longitude = (parsedPos s).1 ∧
    (stepWaypoint a b s).latitude = (parsedPos s).2 := by
  unfold stepWaypoint
  split_ifs <;> exact ⟨rfl, rfl⟩

theorem parseStep_cursor_chain (st : PState) (s : List Char)
    (hc : cursorOk st) (ha : List.Chain' segRel st.waypoints) :
    cursorOk (parseStep st s) ∧ List.Chain' segRel (parseStep st s).waypoints := by
  constructor
  · intro w hw
    simp only [parseStep] at hw ⊢
    rw [List.getLast?_concat] at hw
    cases hw
    exact ⟨(stepWaypoint_pos _ _ _).1.symm, (stepWaypoint_pos _ _ _).2.symm⟩
  · simp only [parseStep]
    rw [List.chain'_append]
    refine ⟨ha, List.chain'_singleton _, ?_⟩
    intro x hx y hy
    simp only [List.head?_cons, Option.mem_def, Option.some.injEq] at hy
    subst hy
    obtain ⟨h1, h2⟩ := hc x (Option.mem_def.mp hx)
    have hw0 : stepWaypoint st.lastLongi st.lastLati s =
        stepWaypoint x.longitude x.latitude s := by rw [h1, h2]
    rw [hw0]
    constructor
    · intro hcond
      constructor <;> simp [stepWaypoint, hcond]
    · intro hcond
      have hn : ¬(x.longitude ≠ 0 ∧ x.latitude ≠ 0) := by tauto
      constructor <;> simp [stepWaypoint, hn]

theorem parse_foldl_chain (stamps : List (List Char)) :
    ∀ st : PState, cursorOk st → List.Chain' segRel st.waypoints →
      cursorOk (stamps.foldl parseStep st) ∧
      List.Chain' segRel (stamps.foldl parseStep st).waypoints := by
  induction stamps with
  | nil => intro st hc ha; exact ⟨hc, ha⟩
  | cons s rest ih =>
    intro st hc ha
    simp only [List.foldl_cons]
    obtain ⟨hc', ha'⟩ := parseStep_cursor_chain st s hc ha
    exact ih (parseStep st s) hc' ha'

/-- C5: every pair of consecutive waypoints produced by `parseWaypoints`
satisfies the segment rule — the segment is computed from the previous
waypoint's position exactly when that position (the last-known-position
cursor) is non-zero in both coordinates, and is zero otherwise.  Because
the cursor is updated with the current point even on the first fragment,
a first waypoint legitimately at `(0, 0)` behaves like "no previous
position": the second waypoint of `"[[0.0,0.0],[1.0,1.0]]"` has zero
segment distance and heading. -/
theorem parse_segment_rule :
    (∀ text : String, List.Chain' segRel (parseWaypoints text)) ∧
    parseWaypoints "[[0.0,0.0],[1.0,1.0]]" =
      [⟨0, 0, 0, 0⟩, ⟨1, 1, 0, 0⟩] := by
  constructor
  · intro text
    refine (parse_foldl_chain (stampsOf text) ⟨0, 0, true, 0, []⟩ ?_ ?_).2
    · intro w hw
      simp at hw
    · exact List.chain'_nil
  · rfl

theorem OVRR_ten : (10000000000 : ℝ) ≤ OVRR := by
  have h : (10000000000 : ℕ) ≤ OVRN := by norm_num [OVRN]
  calc (10000000000 : ℝ) = ((10000000000 : ℕ) : ℝ) := by norm_num
    _ ≤ ((OVRN : ℕ) : ℝ) := by exact_mod_cast h
    _ = OVRR := rfl

theorem lt_OVRR (x : ℝ) (h : |x| ≤ 3300000000) : |x| < OVRR :=
  lt_of_le_of_lt h (lt_of_lt_of_le (by norm_num) OVRR_ten)

theorem fAdd_fin (a b : ℝ) (h : |a + b| < OVRR) : fAdd (.fin a) (.fin b) = .fin (a + b) := by
  obtain ⟨ha, hb⟩ := abs_lt.mp h
  simp only [fAdd]
  rw [if_neg (not_le.mpr hb), if_neg (not_le.mpr ha)]

theorem fMul_fin (a b : ℝ) (h : |a * b| < OVRR) : fMul (.fin a) (.fin b) = .fin (a * b) := by
  obtain ⟨ha, hb⟩ := abs_lt.mp h
  simp only [fMul]
  rw [if_neg (not_le.mpr hb), if_neg (not_le.mpr ha)]

theorem fSub_fin (a b : ℝ) (h : |a - b| < OVRR) : fSub (.fin a) (.fin b) = .fin (a - b) := by
  have h' : |a + -b| < OVRR := by rwa [← sub_eq_add_neg]
  show fAdd (.fin a) (fNeg (.fin b)) = _
  rw [show fNeg (FVal.fin b) = FVal.fin (-b) from rfl, fAdd_fin a (-b) h', ← sub_eq_add_neg]

theorem fHalf_fin (a : ℝ) : fHalf (.fin a) = .fin (a / 2) := rfl

theorem fCos_fin (a : ℝ) : fCos (.fin a) = some (.fin (Real.cos a)) := rfl

theorem fSqrt_fin (a : ℝ) (h : 0 ≤ a) : fSqrt (.fin a) = some (.fin (Real.sqrt a)) := by
  simp only [fSqrt]
  rw [if_neg (not_lt.mpr h)]

theorem atan2F_fin (y x : ℝ) : atan2F (.fin y) (.fin x) = .fin (atan2 y x) := rfl

theorem fDivPC_fin (a c : ℝ) : fDivPC (.fin a) c = .fin (a / c) := rfl

theorem inRangeB_iff (v : PyVal) :
    inRangeB v = true ↔ ∃ q, v = PyVal.fin q ∧ -180 ≤ q ∧ q ≤ 180 := by
  cases v <;> simp [inRangeB]

theorem parsedPosF_of_fails (s : List Char) (hf : stampFailsF s = true) :
    parsedPosF s = (PyVal.fin 0, PyVal.fin 0) := by
  unfold parsedPosF
  unfold stampFailsF at hf
  cases hL : pyFloatF? (partitionComma s).1 <;> cases hR : pyFloatF? (partitionComma s).2 <;>
    simp [hL, hR] at hf ⊢

theorem geoF_fin (lon1 lat1 lon2 lat2 : ℚ)
    (h1 : -180 ≤ lon1) (h2 : lon1 ≤ 180) (h3 : -180 ≤ lat1) (h4 : lat1 ≤ 180)
    (h5 : -180 ≤ lon2) (h6 : lon2 ≤ 180) (h7 : -180 ≤ lat2) (h8 : lat2 ≤ 180) :
    geodistF (.fin lon1) (.fin lat1) (.fin lon2) (.fin lat2) =
      some (.fin (geodist (lon1 : ℝ) (lat1 : ℝ) (lon2 : ℝ) (lat2 : ℝ))) ∧
    geodirF (.fin lon1) (.fin lat1) (.fin lon2) (.fin lat2) =
      some (.fin (geodir (lon1 : ℝ) (lat1 : ℝ) (lon2 : ℝ) (lat2 : ℝ))) := by
  have hπ := Real.pi_pos
  have hπ4 : π ≤ 4 := Real.pi_le_four
  have hA : |(lon1 : ℝ)| ≤ 180 := by
    rw [abs_le]; exact ⟨by exact_mod_cast h1, by exact_mod_cast h2⟩
  have hB : |(lat1 : ℝ)| ≤ 180 := by
    rw [abs_le]; exact ⟨by exact_mod_cast h3, by exact_mod_cast h4⟩
  have hC : |(lon2 : ℝ)| ≤ 180 := by
    rw [abs_le]; exact ⟨by exact_mod_cast h5, by exact_mod_cast h6⟩
  have hD : |(lat2 : ℝ)| ≤ 180 := by
    rw [abs_le]; exact ⟨by exact_mod_cast h7, by exact_mod_cast h8⟩
  simp only [geodistF, geodirF, toF]
  revert hA hB hC hD
  generalize (lon1 : ℝ) = a
  generalize (lat1 : ℝ) = b
  generalize (lon2 : ℝ) = c
  generalize (lat2 : ℝ) = d
  intro hA hB hC hD
  have hpid : |π / 180| ≤ 1 := by
    rw [abs_le]
    constructor <;> nlinarith
  have hBD : |b + d| ≤ 360 := le_trans (abs_add _ _) (by linarith)
  have hAC : |a - c| ≤ 360 := le_trans (abs_sub _ _) (by linarith)
  have hMD : |b - d| ≤ 360 := le_trans (abs_sub _ _) (by linarith)
  have hHalf : |(b + d) / 2| ≤ 180 := by
    rw [abs_div, abs_two, div_le_iff₀ (by norm_num : (0:ℝ) < 2)]
    linarith
  have hθ : |(b + d) / 2 * (π / 180)| ≤ 180 := by
    rw [abs_mul]
    calc |(b + d) / 2| * |π / 180| ≤ 180 * 1 :=
          mul_le_mul hHalf hpid (abs_nonneg _) (by norm_num)
      _ = 180 := by norm_num
  have hK : |Real.cos ((b + d) / 2 * (π / 180))| ≤ 1 := Real.abs_cos_le_one _
  have hL : |(a - c) * Real.cos ((b + d) / 2 * (π / 180))| ≤ 360 := by
    rw [abs_mul]
    calc |a - c| * |Real.cos ((b + d) / 2 * (π / 180))| ≤ 360 * 1 :=
          mul_le_mul hAC hK (abs_nonneg _) (by norm_num)
      _ = 360 := by norm_num
  rw [fAdd_fin b d (lt_OVRR _ (le_trans hBD (by norm_num))), fHalf_fin,
    fMul_fin ((b + d) / 2) (π / 180) (lt_OVRR _ (le_trans hθ (by norm_num))), fCos_fin]
  dsimp only
  rw [fSub_fin a c (lt_OVRR _ (le_trans hAC (by norm_num))),
    fSub_fin b d (lt_OVRR _ (le_trans hMD (by norm_num))),
    fMul_fin (a - c) (Real.cos ((b + d) / 2 * (π / 180)))
      (lt_OVRR _ (le_trans hL (by norm_num)))]
  have hL2 : |(a - c) * Real.cos ((b + d) / 2 * (π / 180)) *
      ((a - c) * Real.cos ((b + d) / 2 * (π / 180)))| ≤ 129600 := by
    rw [abs_mul]
    calc |(a - c) * Real.cos ((b + d) / 2 * (π / 180))| *
          |(a - c) * Real.cos ((b + d) / 2 * (π / 180))| ≤ 360 * 360 :=
          mul_le_mul hL hL (abs_nonneg _) (by norm_num)
      _ = 129600 := by norm_num
  have hM2 : |(b - d) * (b - d)| ≤ 129600 := by
    rw [abs_mul]
    calc |b - d| * |b - d| ≤ 360 * 360 := mul_le_mul hMD hMD (abs_nonneg _) (by norm_num)
      _ = 129600 := by norm_num
  have hS : |(a - c) * Real.cos ((b + d) / 2 * (π / 180)) *
      ((a - c) * Real.cos ((b + d) / 2 * (π / 180))) + (b - d) * (b - d)| ≤ 259200 :=
    le_trans (abs_add _ _) (by linarith)
  have hSnn : 0 ≤ (a - c) * Real.cos ((b + d) / 2 * (π / 180)) *
      ((a - c) * Real.cos ((b + d) / 2 * (π / 180))) + (b - d) * (b - d) := by
    have := mul_self_nonneg ((a - c) * Real.cos ((b + d) / 2 * (π / 180)))
    have := mul_self_nonneg (b - d)
    linarith
  have hrt : |Real.sqrt ((a - c) * Real.cos ((b + d) / 2 * (π / 180)) *
      ((a - c) * Real.cos ((b + d) / 2 * (π / 180))) + (b - d) * (b - d))| ≤ 510 := by
    rw [abs_of_nonneg (Real.sqrt_nonneg _)]
    calc Real.sqrt ((a - c) * Real.cos ((b + d) / 2 * (π / 180)) *
          ((a - c) * Real.cos ((b + d) / 2 * (π / 180))) + (b - d) * (b - d)) ≤
          Real.sqrt (510 ^ 2) := by
          apply Real.sqrt_le_sqrt
          have := abs_le.mp hS
          nlinarith [this.2]
      _ = 510 := Real.sqrt_sq (by norm_num)
  constructor
  · rw [fMul_fin ((a - c) * Real.cos ((b + d) / 2 * (π / 180)))
        ((a - c) * Real.cos ((b + d) / 2 * (π / 180)))
        (lt_OVRR _ (le_trans hL2 (by norm_num))),
      fMul_fin (b - d) (b - d) (lt_OVRR _ (le_trans hM2 (by norm_num))),
      fAdd_fin _ _ (lt_OVRR _ (le_trans hS (by norm_num))),
      fSqrt_fin _ hSnn]
    dsimp only
    have hr6 : |Real.sqrt ((a - c) * Real.cos ((b + d) / 2 * (π / 180)) *
        ((a - c) * Real.cos ((b + d) / 2 * (π / 180))) + (b - d) * (b - d)) * 6371000| ≤
        3249210000 := by
      rw [abs_mul]
      calc |Real.sqrt ((a - c) * Real.cos ((b + d) / 2 * (π / 180)) *
            ((a - c) * Real.cos ((b + d) / 2 * (π / 180))) + (b - d) * (b - d))| *
            |(6371000 : ℝ)| ≤ 510 * 6371000 :=
            mul_le_mul hrt (le_of_eq (by rw [abs_of_nonneg] <;> norm_num)) (abs_nonneg _)
              (by norm_num)
        _ = 3249210000 := by norm_num
    have hr7 : |Real.sqrt ((a - c) * Real.cos ((b + d) / 2 * (π / 180)) *
        ((a - c) * Real.cos ((b + d) / 2 * (π / 180))) + (b - d) * (b - d)) * 6371000 *
        (π / 180)| ≤ 3249210000 := by
      rw [abs_mul]
      calc |Real.sqrt ((a - c) * Real.cos ((b + d) / 2 * (π / 180)) *
            ((a - c) * Real.cos ((b + d) / 2 * (π / 180))) + (b - d) * (b - d)) * 6371000| *
            |π / 180| ≤ 3249210000 * 1 :=
            mul_le_mul hr6 hpid (abs_nonneg _) (by norm_num)
        _ = 3249210000 := by norm_num
    rw [fMul_fin _ (6371000 : ℝ) (lt_OVRR _ (le_trans hr6 (by norm_num))),
      fMul_fin _ (π / 180) (lt_OVRR _ (le_trans hr7 (by norm_num)))]
    rfl
  · have hat := atan2_mem_Icc (b - d) ((a - c) * Real.cos ((b + d) / 2 * (π / 180)))
    have hat' : |atan2 (b - d) ((a - c) * Real.cos ((b + d) / 2 * (π / 180)))| ≤ 4 := by
      rw [abs_le]
      exact ⟨by linarith [hat.1], by linarith [hat.2]⟩
    have h720 : |atan2 (b - d) ((a - c) * Real.cos ((b + d) / 2 * (π / 180))) * 180| ≤ 720 := by
      rw [abs_mul]
      calc |atan2 (b - d) ((a - c) * Real.cos ((b + d) / 2 * (π / 180)))| * |(180 : ℝ)| ≤
            4 * 180 := mul_le_mul hat' (le_of_eq (by rw [abs_of_nonneg] <;> norm_num))
            (abs_nonneg _) (by norm_num)
        _ = 720 := by norm_num
    rw [atan2F_fin, fMul_fin _ (180 : ℝ) (lt_OVRR _ (le_trans h720 (by norm_num))),
      fDivPC_fin]
    rfl

theorem fSum_aux (l : List FVal) :
    ∀ acc : FVal, (∀ v ∈ l, ∃ r, v = FVal.fin r ∧ 0 ≤ r) →
      ((∃ r, acc = FVal.fin r ∧ 0 ≤ r) ∨ acc = FVal.inf) →
      fGe0 (l.foldl fAdd acc) := by
  have hO : (0 : ℝ) < OVRR := lt_of_lt_of_le (by norm_num) OVRR_ten
  induction l with
  | nil =>
    intro acc _ hacc
    rcases hacc with ⟨r, rfl, hr⟩ | rfl
    · exact hr
    · exact trivial
  | cons v t ih =>
    intro acc h hacc
    obtain ⟨r, rfl, hr⟩ := h v (by simp)
    simp only [List.foldl_cons]
    apply ih _ (fun v' hv' => h v' (by simp [hv']))
    rcases hacc with ⟨a, rfl, ha⟩ | rfl
    · by_cases hov : OVRR ≤ a + r
      · right
        simp only [fAdd, if_pos hov]
      · left
        have hneg : ¬(a + r ≤ -OVRR) := by
          intro hc
          linarith
        refine ⟨a + r, ?_, by linarith⟩
        simp only [fAdd, if_neg hov, if_neg hneg]
    · right
      rfl

theorem fSum_ge0 (l : List FVal) (h : ∀ v ∈ l, ∃ r, v = FVal.fin r ∧ 0 ≤ r) :
    fGe0 (fSum l) :=
  fSum_aux l (FVal.fin 0) h (Or.inl ⟨0, rfl, le_refl 0⟩)

theorem stepWaypointF_ranged (lo la : PyVal) (s : List Char)
    (hlo : inRangeB lo = true) (hla : inRangeB la = true)
    (hs : posInRangeB (parsedPosF s) = true) :
    ∃ w, stepWaypointF lo la s = some w ∧
      w.longitude = (parsedPosF s).1 ∧ w.latitude = (parsedPosF s).2 ∧ goodWF w := by
  obtain ⟨qlo, hlo', hlo1, hlo2⟩ := (inRangeB_iff lo).mp hlo
  obtain ⟨qla, hla', hla1, hla2⟩ := (inRangeB_iff la).mp hla
  subst hlo'
  subst hla'
  rw [posInRangeB, Bool.and_eq_true] at hs
  obtain ⟨p1, hp1, hp11, hp12⟩ := (inRangeB_iff _).mp hs.1
  obtain ⟨p2, hp2, hp21, hp22⟩ := (inRangeB_iff _).mp hs.2
  unfold stepWaypointF
  by_cases hnz : (pyNonzero (PyVal.fin qlo) && pyNonzero (PyVal.fin qla)) = true
  · rw [if_pos hnz, hp1, hp2]
    obtain ⟨hgd, hgr⟩ := geoF_fin p1 p2 qlo qla hp11 hp12 hp21 hp22 hlo1 hlo2 hla1 hla2
    rw [hgd, hgr]
    refine ⟨_, rfl, rfl, rfl, ?_, ?_⟩
    · exact ⟨_, rfl, geodist_nonneg _ _ _ _⟩
    · exact ⟨_, rfl, (geodir_mem_Icc _ _ _ _).1, (geodir_mem_Icc _ _ _ _).2⟩
  · rw [if_neg hnz]
    exact ⟨_, rfl, rfl, rfl, ⟨0, rfl, le_refl 0⟩, ⟨0, rfl, by norm_num, by norm_num⟩⟩

theorem parse_foldF (stamps : List (List Char)) :
    ∀ st : PStateF, inRangeB st.lastLongi = true → inRangeB st.lastLati = true →
      (∀ s ∈ stamps, posInRangeB (parsedPosF s) = true) →
      ∃ st', stamps.foldl (fun acc s => acc.bind fun st0 => parseStepF st0 s) (some st) =
          some st' ∧
        st'.happy = (st.happy && !stamps.any stampTriggerF) ∧
        st'.diags = st.diags + (if st.happy && stamps.any stampTriggerF then 1 else 0) ∧
        st'.waypoints.map (fun w => (w.longitude, w.latitude)) =
          st.waypoints.map (fun w => (w.longitude, w.latitude)) ++ stamps.map parsedPosF ∧
        (∀ w ∈ st'.waypoints, w ∈ st.waypoints ∨ goodWF w) := by
  induction stamps with
  | nil =>
    intro st _ _ _
    exact ⟨st, rfl, by simp, by simp, by simp, fun w hw => Or.inl hw⟩
  | cons s rest ih =>
    intro st h1 h2 h3
    have hps : posInRangeB (parsedPosF s) = true := h3 s (by simp)
    have hps' := hps
    rw [posInRangeB, Bool.and_eq_true] at hps'
    obtain ⟨w, hw, hw1, hw2, hwg⟩ :=
      stepWaypointF_ranged st.lastLongi st.lastLati s h1 h2 hps
    have hstep : parseStepF st s = some
        { lastLongi := (parsedPosF s).1
          lastLati := (parsedPosF s).2
          happy := if stampTriggerF s && st.happy then false else st.happy
          diags := if stampTriggerF s && st.happy then st.diags + 1 else st.diags
          waypoints := st.waypoints ++ [w] } := by
      unfold parseStepF
      rw [hw]
    obtain ⟨st', hfold, hh, hd, hm, hg⟩ := ih
      { lastLongi := (parsedPosF s).1
        lastLati := (parsedPosF s).2
        happy := if stampTriggerF s && st.happy then false else st.happy
        diags := if stampTriggerF s && st.happy then st.diags + 1 else st.diags
        waypoints := st.waypoints ++ [w] }
      hps'.1 hps'.2 (fun s' hs' => h3 s' (by simp [hs']))
    refine ⟨st', ?_, ?_, ?_, ?_, ?_⟩
    · simp only [List.foldl_cons]
      rw [show (some st).bind (fun st0 => parseStepF st0 s) = parseStepF st s from rfl,
        hstep]
      exact hfold
    · rw [hh]
      simp only [List.any_cons]
      rcases Bool.dichotomy (stampTriggerF s) with ht | ht <;>
        rcases Bool.dichotomy st.happy with hhap | hhap <;>
        simp [ht, hhap]
    · rw [hd]
      simp only [List.any_cons]
      rcases Bool.dichotomy (stampTriggerF s) with ht | ht <;>
        rcases Bool.dichotomy st.happy with hhap | hhap <;>
        rcases Bool.dichotomy (rest.any stampTriggerF) with har | har <;>
        simp [ht, hhap, har]
    · rw [hm, List.map_append, List.append_assoc]
      simp only [List.map_cons, List.map_nil, List.singleton_append]
      rw [hw1, hw2, Prod.mk.eta]
    · intro w' hw'
      rcases hg w' hw' with hmem | hgood
      · simp only [List.mem_append, List.mem_singleton] at hmem
        rcases hmem with hmem | rfl
        · exact Or.inl hmem
        · exact Or.inr hwg
      · exact Or.inr hgood

theorem fMul_nan_left (X : FVal) : fMul FVal.nan X = FVal.nan := by
  cases X <;> rfl

theorem fAdd_nan_left (X : FVal) : fAdd FVal.nan X = FVal.nan := by
  cases X <;> rfl

theorem atan2F_nan_right (y : FVal) : atan2F y FVal.nan = FVal.nan := by
  cases y <;> rfl

/-- C3 counterexample: on `"[[abc]]"` the single fragment has a
non-empty longitude substring but an *empty* latitude substring, yet a
diagnostic is emitted — refuting the claim that a diagnostic requires
both substrings non-empty; and on `"[[1e999,1e999],[1,1]]"` the first
pair parses to `(inf, inf)`, so the second fragment reaches `geodist`
where `cos` of an infinite latitude sum raises `ValueError` — refuting
the claim that parse never raises. -/
theorem parse_diag_and_raise :
    parseRunF "[[abc]]" =
      some ⟨PyVal.fin 0, PyVal.fin 0, false, 1,
        [⟨PyVal.fin 0, PyVal.fin 0, FVal.fin 0, FVal.fin 0⟩]⟩ ∧
    (partitionComma ['a', 'b', 'c']).2 = [] ∧
    parseRunF "[[1e999,1e999],[1,1]]" = none := by
  refine ⟨rfl, rfl, ?_⟩
  have hmulinf : fMul FVal.inf (FVal.fin (π / 180)) = FVal.inf := by
    simp only [fMul]
    rw [if_pos (by positivity : (0 : ℝ) < π / 180)]
  have hcos : fCos (fMul FVal.inf (FVal.fin (π / 180))) = none := by
    rw [hmulinf]
    rfl
  have hgd : geodistF (PyVal.fin 1) (PyVal.fin 1) PyVal.inf PyVal.inf = none := by
    unfold geodistF
    rw [show fHalf (fAdd (toF (PyVal.fin 1)) (toF PyVal.inf)) = FVal.inf from rfl, hcos]
  have hgr : geodirF (PyVal.fin 1) (PyVal.fin 1) PyVal.inf PyVal.inf = none := by
    unfold geodirF
    rw [show fHalf (fAdd (toF (PyVal.fin 1)) (toF PyVal.inf)) = FVal.inf from rfl, hcos]
  have hstep2 : parseStepF ⟨PyVal.inf, PyVal.inf, true, 0,
      [⟨PyVal.inf, PyVal.inf, FVal.fin 0, FVal.fin 0⟩]⟩ ("1,1".toList) = none := by
    unfold parseStepF stepWaypointF
    rw [if_pos (by decide : (pyNonzero PyVal.inf && pyNonzero PyVal.inf) = true)]
    rw [show parsedPosF ("1,1".toList) = (PyVal.fin 1, PyVal.fin 1) from rfl]
    dsimp only
    rw [hgd, hgr]
  calc parseRunF "[[1e999,1e999],[1,1]]"
      = parseStepF ⟨PyVal.inf, PyVal.inf, true, 0,
          [⟨PyVal.inf, PyVal.inf, FVal.fin 0, FVal.fin 0⟩]⟩ ("1,1".toList) := rfl
    _ = none := hstep2

/-- C3 (amended): for every input string whose successfully parsed
coordinates are all finite and within the documented `[-180, 180]`
range, `parseWaypoints` completes without raising; at most one
diagnostic is emitted per call; a diagnostic is emitted exactly when
some fragment's float conversion fails with at least one (not: both) of
its two substrings non-empty; and every failing fragment's waypoint gets
position `(0, 0)`.  (Outside that domain parse can raise: see the
counterexample.) -/
theorem parse_failure_policy_ranged (text : String)
    (hR : ∀ s ∈ stampsOf text, posInRangeB (parsedPosF s) = true) :
    ∃ st, parseRunF text = some st ∧
      st.diags ≤ 1 ∧
      (st.diags = 1 ↔ (stampsOf text).any stampTriggerF = true) ∧
      (∀ (i : ℕ) (s : List Char), (stampsOf text).get? i = some s → stampFailsF s = true →
        ∃ w, st.waypoints.get? i = some w ∧
          w.longitude = PyVal.fin 0 ∧ w.latitude = PyVal.fin 0) := by
  obtain ⟨st, hrun, hh, hd, hm, hg⟩ := parse_foldF (stampsOf text)
    ⟨PyVal.fin 0, PyVal.fin 0, true, 0, []⟩ (by decide) (by decide) hR
  refine ⟨st, hrun, ?_, ?_, ?_⟩
  · rw [hd]
    dsimp only
    split <;> omega
  · rw [hd]
    dsimp only
    cases hA : (stampsOf text).any stampTriggerF <;> simp [hA]
  · intro i s hsi hf
    have hm' : st.waypoints.map (fun w => (w.longitude, w.latitude)) =
        (stampsOf text).map parsedPosF := by
      simpa using hm
    have h1 : (st.waypoints.map (fun w => (w.longitude, w.latitude))).get? i =
        some (PyVal.fin 0, PyVal.fin 0) := by
      rw [hm', List.get?_map, hsi, Option.map_some', parsedPosF_of_fails s hf]
    rw [List.get?_map] at h1
    cases hgw : st.waypoints.get? i with
    | none => rw [hgw] at h1; simp at h1
    | some w =>
      rw [hgw, Option.map_some'] at h1
      refine ⟨w, rfl, ?_, ?_⟩
      · exact congrArg Prod.fst (Option.some.inj h1)
      · exact congrArg Prod.snd (Option.some.inj h1)

theorem parse_failure_policy_ranged_witness :
    ∃ st, parseRunF "[[x,y]]" = some st ∧ st.diags = 1 ∧
      ∃ w, st.waypoints.get? 0 = some w ∧
        w.longitude = PyVal.fin 0 ∧ w.latitude = PyVal.fin 0 := by
  obtain ⟨st, h1, _, h3, h4⟩ := parse_failure_policy_ranged "[[x,y]]" (by decide)
  exact ⟨st, h1, h3.mpr rfl, h4 0 ("x,y".toList) rfl rfl⟩

/-- C10 counterexample: on `"[[1e999,1.0],[1e999,2.0]]"` the longitude
of both points parses to `inf`; the second fragment's `geodist` then
computes `inf - inf = nan`, which propagates through `sqrt` to a
segment distance (and heading) of `nan`, for which Python's
`segment_distance >= 0` is false — refuting the nonnegativity claim on
the program. -/
theorem parse_nan_segment :
    parseWaypointsF "[[1e999,1.0],[1e999,2.0]]" =
      some [⟨PyVal.inf, PyVal.fin 1, FVal.fin 0, FVal.fin 0⟩,
        ⟨PyVal.inf, PyVal.fin 2, FVal.nan, FVal.nan⟩] ∧
    ¬fGe0 FVal.nan := by
  have hO := OVRR_ten
  have hπ := Real.pi_pos
  have hπ4 : π ≤ 4 := Real.pi_le_four
  have hb1 : |((2 : ℚ) : ℝ) + ((1 : ℚ) : ℝ)| < OVRR := by
    push_cast
    rw [abs_lt]
    constructor <;> nlinarith
  have hb2 : |(((2 : ℚ) : ℝ) + ((1 : ℚ) : ℝ)) / 2 * (π / 180)| < OVRR := by
    push_cast
    rw [abs_lt]
    constructor <;> nlinarith
  have hlat : fMul (fHalf (fAdd (toF (PyVal.fin 2)) (toF (PyVal.fin 1))))
      (FVal.fin (π / 180)) =
      FVal.fin ((((2 : ℚ) : ℝ) + ((1 : ℚ) : ℝ)) / 2 * (π / 180)) := by
    rw [show toF (PyVal.fin 2) = FVal.fin ((2 : ℚ) : ℝ) from rfl,
      show toF (PyVal.fin 1) = FVal.fin ((1 : ℚ) : ℝ) from rfl,
      fAdd_fin _ _ hb1, fHalf_fin, fMul_fin _ _ hb2]
  have hgd : geodistF PyVal.inf (PyVal.fin 2) PyVal.inf (PyVal.fin 1) = some FVal.nan := by
    unfold geodistF
    rw [hlat, fCos_fin]
    dsimp only
    rw [show fSub (toF PyVal.inf) (toF PyVal.inf) = FVal.nan from rfl]
    rw [fMul_nan_left, fMul_nan_left, fAdd_nan_left, show fSqrt FVal.nan = some FVal.nan from rfl]
    dsimp only
    rw [fMul_nan_left, fMul_nan_left]
  have hgr : geodirF PyVal.inf (PyVal.fin 2) PyVal.inf (PyVal.fin 1) = some FVal.nan := by
    unfold geodirF
    rw [hlat, fCos_fin]
    dsimp only
    rw [show fSub (toF PyVal.inf) (toF PyVal.inf) = FVal.nan from rfl, fMul_nan_left,
      atan2F_nan_right, fMul_nan_left, show fDivPC FVal.nan π = FVal.nan from rfl]
  have hstep2 : parseStepF ⟨PyVal.inf, PyVal.fin 1, true, 0,
      [⟨PyVal.inf, PyVal.fin 1, FVal.fin 0, FVal.fin 0⟩]⟩ ("1e999,2.0".toList) =
      some ⟨PyVal.inf, PyVal.fin 2, true, 0,
        [⟨PyVal.inf, PyVal.fin 1, FVal.fin 0, FVal.fin 0⟩,
          ⟨PyVal.inf, PyVal.fin 2, FVal.nan, FVal.nan⟩]⟩ := by
    unfold parseStepF stepWaypointF
    rw [if_pos (by decide : (pyNonzero PyVal.inf && pyNonzero (PyVal.fin 1)) = true)]
    rw [show parsedPosF ("1e999,2.0".toList) = (PyVal.inf, PyVal.fin 2) from rfl]
    dsimp only
    rw [hgd, hgr]
    rfl
  refine ⟨?_, fun h => h⟩
  calc parseWaypointsF "[[1e999,1.0],[1e999,2.0]]"
      = (parseStepF ⟨PyVal.inf, PyVal.fin 1, true, 0,
          [⟨PyVal.inf, PyVal.fin 1, FVal.fin 0, FVal.fin 0⟩]⟩
          ("1e999,2.0".toList)).map PStateF.waypoints := rfl
    _ = some [⟨PyVal.inf, PyVal.fin 1, FVal.fin 0, FVal.fin 0⟩,
        ⟨PyVal.inf, PyVal.fin 2, FVal.nan, FVal.nan⟩] := by rw [hstep2]; rfl

/-- C10 (amended): for every input string whose successfully parsed
coordinates are all finite and within the documented `[-180, 180]`
range, parse completes without raising and every produced waypoint has a
finite nonnegative `segment_distance` and a finite `segment_heading` in
`[-180, 180]`; consequently `drive_distance_m`, the Python `sum` of the
segment distances, satisfies `>= 0`.  (With an overflowed, infinite
coordinate the invariant fails: a segment distance can be `nan`, see the
counterexample.) -/
theorem parse_waypoint_invariants_ranged (text : String)
    (hR : ∀ s ∈ stampsOf text, posInRangeB (parsedPosF s) = true) :
    ∃ st, parseRunF text = some st ∧
      (∀ w ∈ st.waypoints,
        (∃ r, w.distance = FVal.fin r ∧ 0 ≤ r) ∧
        (∃ h, w.heading = FVal.fin h ∧ -180 ≤ h ∧ h ≤ 180)) ∧
      fGe0 (fSum (st.waypoints.map WaypointF.distance)) := by
  obtain ⟨st, hrun, -, -, -, hg⟩ := parse_foldF (stampsOf text)
    ⟨PyVal.fin 0, PyVal.fin 0, true, 0, []⟩ (by decide) (by decide) hR
  have hgood : ∀ w ∈ st.waypoints, goodWF w := by
    intro w hw
    rcases hg w hw with hmem | h
    · simp at hmem
    · exact h
  refine ⟨st, hrun, fun w hw => hgood w hw, ?_⟩
  apply fSum_ge0
  intro v hv
  simp only [List.mem_map] at hv
  obtain ⟨w, hw, rfl⟩ := hv
  exact (hgood w hw).1

theorem parse_waypoint_invariants_ranged_witness :
    ∃ st, parseRunF "[[1.0,2.0]]" = some st ∧
      (∀ w ∈ st.waypoints,
        (∃ r, w.distance = FVal.fin r ∧ 0 ≤ r) ∧
        (∃ h, w.heading = FVal.fin h ∧ -180 ≤ h ∧ h ≤ 180)) ∧
      fGe0 (fSum (st.waypoints.map WaypointF.distance)) :=
  parse_waypoint_invariants_ranged "[[1.0,2.0]]" (by decide)

end TaxiPredict
